import Mathlib

/-!
Verification of the DB48X numeric/runtime core against its specification.

The definitions below are a shallow embedding of the C++ sources:
  - locals.h      (local variable objects, LEB128-encoded indices)
  - algebraic.cc  (numeric promotion across the tower)
  - decimal128.cc (decimal text parsing and display formatting)
  - graphics.cc   (pixel coordinate conversion)
Machine integers are modelled as Nat/Int, strings as lists of characters,
fallible operations as Option.
-/

/- ======================================================================== -/
/- LEB128 encoding (locals.h uses leb128 / leb128size from leb128.h)        -/
/- ======================================================================== -/

namespace DB48X

/-- Modelled from the spec: the repository's leb128.h is not under src/.
The spec describes "a compact variable-length integer encoding (7 bits per
byte, continuation bit) for all embedded sizes, indices, and counts".
Each byte holds 7 low-order bits; the high bit (0x80) is set on every byte
except the last. -/
def leb128_encode (n : Nat) : List Nat :=
  if n < 128 then [n]
  else (n % 128 + 128) :: leb128_encode (n / 128)
decreasing_by
  exact Nat.div_lt_self (by omega) (by omega)

/-- Modelled from the spec: LEB128 decoding, reading 7 bits per byte until a
byte without the continuation bit is found. -/
def leb128_decode : List Nat → Nat
  | [] => 0
  | b :: rest => if b < 128 then b else (b - 128) + 128 * leb128_decode rest

/-- local::local(uint index): the constructor writes the index into the
payload with leb128(p, index) (locals.h line 93-97). The payload is the
byte list produced by the encoder. -/
def local_make (index : Nat) : List Nat :=
  leb128_encode index

/-- local::index(): reads the payload back with the LEB128 decoder
(locals.h line 115-119). -/
def local_index (payload : List Nat) : Nat :=
  leb128_decode payload

/- ======================================================================== -/
/- Local variable resolution across the active frame stack                  -/
/- ======================================================================== -/

/-- Modelled from the spec: runtime::local(index) lives in runtime.cc which
is not under src/; locals.h lines 48-65 document the resolution rule and
local::recall / local::store delegate to it.  Per the spec, resolution
"walks the active-frame stack from innermost outward, subtracting each
frame's name count from index until the owning frame and its local slot are
found"; an index beyond the outermost frame is a detectable error (none). -/
def resolve_local {α : Type} : List (List α) → Nat → Option α
  | [], _ => none
  | frame :: outer, index =>
    if h : index < frame.length then some (frame.get ⟨index, h⟩)
    else resolve_local outer (index - frame.length)

/- ======================================================================== -/
/- Numeric tower: algebraic::real_promotion (algebraic.cc)                  -/
/- ======================================================================== -/

/-- object::id, restricted to the kinds algebraic.cc's real_promotion
dispatches on.  ID_object is the failure sentinel returned by the
auto-selecting overload; ID_symbol stands for the non-numeric kinds that
fall into the default branch of the switch. -/
inductive oid where
  | integer
  | neg_integer
  | bignum
  | neg_bignum
  | decimal32
  | decimal64
  | decimal128
  | symbol
  | object
  deriving DecidableEq, Repr

/-- The algebraic values real_promotion operates on.  Decimal payloads are
carried as exact integers: the Intel BID conversion routines invoked by
rt.make are an external library, and no claim below depends on their
rounding. Sign of integers and bignums is carried by the kind, as in the
source (ID_neg_integer, ID_neg_bignum). -/
inductive algval where
  | integer (v : Nat)
  | neg_integer (v : Nat)
  | bignum (v : Nat)
  | neg_bignum (v : Nat)
  | decimal32 (v : Int)
  | decimal64 (v : Int)
  | decimal128 (v : Int)
  | symbol (n : Nat)
  deriving DecidableEq, Repr

/-- x->type() for the modelled universe. -/
def algval.typeOf : algval → oid
  | .integer _ => .integer
  | .neg_integer _ => .neg_integer
  | .bignum _ => .bignum
  | .neg_bignum _ => .neg_bignum
  | .decimal32 _ => .decimal32
  | .decimal64 _ => .decimal64
  | .decimal128 _ => .decimal128
  | .symbol _ => .symbol

/-- algebraic::real_promotion(algebraic_g &x, object::id type)
(algebraic.cc lines 58-188).  Returns some of the new value on the paths
that return true (the reference argument x is only assigned on those
paths), none where the C++ returns false with x untouched.
The inner case ID_decimal64 under the outer ID_decimal64 switch
(line 169) is kept even though it is unreachable after the early
xt == type return. -/
def real_promotion (x : algval) (type : oid) : Option algval :=
  if x.typeOf = type then some x
  else
    match x with
    | .integer v =>
      match type with
      | .decimal32 => some (.decimal32 v)
      | .decimal64 => some (.decimal64 v)
      | .decimal128 => some (.decimal128 v)
      | _ => none
    | .neg_integer v =>
      match type with
      | .decimal32 => some (.decimal32 (-(v : Int)))
      | .decimal64 => some (.decimal64 (-(v : Int)))
      | .decimal128 => some (.decimal128 (-(v : Int)))
      | _ => none
    | .bignum v =>
      match type with
      | .decimal32 => some (.decimal32 v)
      | .decimal64 => some (.decimal64 v)
      | .decimal128 => some (.decimal128 v)
      | _ => none
    | .neg_bignum v =>
      match type with
      | .decimal32 => some (.decimal32 (-(v : Int)))
      | .decimal64 => some (.decimal64 (-(v : Int)))
      | .decimal128 => some (.decimal128 (-(v : Int)))
      | _ => none
    | .decimal32 v =>
      match type with
      | .decimal64 => some (.decimal64 v)
      | .decimal128 => some (.decimal128 v)
      | _ => none
    | .decimal64 v =>
      match type with
      | .decimal64 => some (.decimal64 v)
      | .decimal128 => some (.decimal128 v)
      | _ => none
    | .decimal128 _ => none
    | .symbol _ => none

/-- BID32 holds at most 7 decimal digits (IEEE 754-2008 decimal32;
constant from the Intel BID headers used by decimal32.h). -/
def BID32_MAXDIGITS : Nat := 7

/-- BID64 holds at most 16 decimal digits (IEEE 754-2008 decimal64). -/
def BID64_MAXDIGITS : Nat := 16

/-- BID128 holds at most 34 decimal digits (IEEE 754-2008 decimal128). -/
def BID128_MAXDIGITS : Nat := 34

/-- The width selection of algebraic::real_promotion(algebraic_g &x)
(algebraic.cc lines 196-200): chosen from Settings.precision alone. -/
def real_promotion_auto_type (precision : Nat) : oid :=
  if precision > BID64_MAXDIGITS then .decimal128
  else if precision > BID32_MAXDIGITS then .decimal64
  else .decimal32

/-- algebraic::real_promotion(algebraic_g &x) (algebraic.cc lines 191-202):
promote to the precision-selected width, returning that width on success
and ID_object on failure. -/
def real_promotion_auto (precision : Nat) (x : algval) : Option algval × oid :=
  let type := real_promotion_auto_type precision
  match real_promotion x type with
  | some y => (some y, type)
  | none => (none, .object)

/-- The target width as the specification words it: "precision above the
64-bit width's digit capacity selects 128-bit, above the 32-bit width's
digit capacity selects 64-bit, otherwise 32-bit".  Stated separately from
the code-derived definition for comparison. -/
def spec_auto_width (precision : Nat) : oid :=
  if precision > BID64_MAXDIGITS then .decimal128
  else if precision > BID32_MAXDIGITS then .decimal64
  else .decimal32

/-- The (source-kind, target-kind) pairs for which real_promotion has a
widening rule, read off the claim: same kind (the early return), machine
or arbitrary-precision integers to any decimal width, decimal32 to the two
wider widths, decimal64 to decimal128 only. -/
def promotion_rule (source target : oid) : Bool :=
  if source = target then true
  else
    match source, target with
    | .integer, .decimal32 | .integer, .decimal64 | .integer, .decimal128 => true
    | .neg_integer, .decimal32 | .neg_integer, .decimal64 | .neg_integer, .decimal128 => true
    | .bignum, .decimal32 | .bignum, .decimal64 | .bignum, .decimal128 => true
    | .neg_bignum, .decimal32 | .neg_bignum, .decimal64 | .neg_bignum, .decimal128 => true
    | .decimal32, .decimal64 | .decimal32, .decimal128 => true
    | .decimal64, .decimal128 => true
    | _, _ => false

/- ======================================================================== -/
/- Decimal text parsing: OBJECT_PARSER_BODY(decimal128), lines 111-221      -/
/- ======================================================================== -/

/-- Parse result of the decimal object parsers.  WARN and ERROR carry the
offset recorded by rt.*_error().source(...); OK carries p.end and the
patched buffer handed to the BID library. -/
inductive presult where
  | SKIP
  | OK (endPos : Nat) (patched : List Char)
  | WARN (errPos : Nat)
  | ERROR (errPos : Nat)
  deriving DecidableEq, Repr

/-- Reading a character of the NUL-terminated source buffer: positions at
or beyond the end read the terminating NUL. -/
def charAt (src : List Char) (i : Nat) : Char :=
  src.getD i (Char.ofNat 0)

/-- Is this character an ASCII digit (the parser's explicit comparisons
against the characters 0 and 9)? -/
def isDigitCh (c : Char) : Bool :=
  '0' ≤ c ∧ c ≤ '9'

/-- The digit-skipping loop, structurally recursive on the remaining
length: fuel is last - i, so fuel 0 is exactly i >= last. -/
def scan_digits_from (src : List Char) : Nat → Nat → Nat
  | 0, i => i
  | fuel + 1, i =>
    if isDigitCh (charAt src i) then scan_digits_from src fuel (i + 1)
    else i

/-- The digit-skipping loops of the parser: from position i, the first
position at or before last holding a non-digit (while s < last and the
character is a digit, s++). -/
def scan_digits (src : List Char) (last i : Nat) : Nat :=
  scan_digits_from src (last - i) i

/-- Accumulating value of n ASCII digits starting at position i, most
significant first, as atoi computes it: acc = acc * 10 + digit. -/
def digits_value (src : List Char) : Nat → Nat → Nat → Nat
  | acc, _, 0 => acc
  | acc, i, n + 1 =>
    digits_value src (acc * 10 + ((charAt src i).toNat - '0'.toNat)) (i + 1) n

/-- atoi(cstring(exponent)) (decimal128.cc line 185): optional sign, then
digits up to the first non-digit of the NUL-terminated buffer.  The digit
run is the same one the exponent scan traversed, since the buffer ends at
src.length. -/
def atoi_at (src : List Char) (i : Nat) : Int :=
  let j := if charAt src i = '+' ∨ charAt src i = '-' then i + 1 else i
  let k := scan_digits src src.length j
  let v := digits_value src 0 j (k - j)
  if charAt src i = '-' then -(v : Int) else (v : Int)

/-- The per-width limits of the textually-instantiated parser: decimal128.cc
line 157 (BID128_MAXDIGITS) and line 186, where maxexp is 6144 when the file
is instantiated at width 128, 384 at width 64 and 96 at width 32. -/
structure pcfg where
  maxdigits : Nat
  maxexp : Int
  exponent_char : Char
  decimal_dot : Char

/-- The instantiation compiled in decimal128.cc. -/
def pcfg128 : pcfg := ⟨BID128_MAXDIGITS, 6144, 'E', '.'⟩

/-- The 64-bit instantiation (same source, 64 substituted). -/
def pcfg64 : pcfg := ⟨BID64_MAXDIGITS, 384, 'E', '.'⟩

/-- The 32-bit instantiation (same source, 32 substituted). -/
def pcfg32 : pcfg := ⟨BID32_MAXDIGITS, 96, 'E', '.'⟩

/-- Length of the leading sign, if any (the s++ after the sign check). -/
def sign_len (src : List Char) : Nat :=
  if charAt src 0 = '+' ∨ charAt src 0 = '-' then 1 else 0

/-- Position after the integer-part digits (the first digit scan). -/
def int_end (src : List Char) : Nat :=
  scan_digits src src.length (sign_len src)

/-- hadDecimalDot: a dot or comma right after the integer digits
(decimal128.cc line 137). -/
def had_dot (src : List Char) : Bool :=
  charAt src (int_end src) = '.' ∨ charAt src (int_end src) = ','

/-- Position after the whole mantissa (integer digits, optional decimal
mark, fractional digits). -/
def mant_end (src : List Char) : Nat :=
  if had_dot src then scan_digits src src.length (int_end src + 1)
  else int_end src

/-- The special names recognized when no digits are present: inf (ASCII,
case-insensitive), the infinity sign, NaN (decimal128.cc lines 148-150). -/
def is_special (src : List Char) (s : Nat) : Bool :=
  ((charAt src s).toLower = 'i' ∧ (charAt src (s + 1)).toLower = 'n' ∧
    (charAt src (s + 2)).toLower = 'f')
  ∨ charAt src s = '∞'
  ∨ ((charAt src s).toLower = 'n' ∧ (charAt src (s + 1)).toLower = 'a' ∧
    (charAt src (s + 2)).toLower = 'n')

/-- uint mantissa = s - digits - hadDecimalDot (decimal128.cc line 156):
the number of mantissa digits in the input. -/
def mantissa_count (src : List Char) : Nat :=
  mant_end src - sign_len src - (if had_dot src then 1 else 0)

/-- Is an exponent marker present right after the mantissa
(decimal128.cc line 166)? -/
def has_marker (cfg : pcfg) (src : List Char) : Bool :=
  charAt src (mant_end src) = 'e' ∨ charAt src (mant_end src) = 'E' ∨
  charAt src (mant_end src) = cfg.exponent_char

/-- Position where the exponent digit scan starts: past the marker and the
optional exponent sign. -/
def exp_scan_start (src : List Char) : Nat :=
  if charAt src (mant_end src + 1) = '+' ∨ charAt src (mant_end src + 1) = '-'
  then mant_end src + 2 else mant_end src + 1

/-- Position after the exponent digits. -/
def exp_digits_end (src : List Char) : Nat :=
  scan_digits src src.length (exp_scan_start src)

/-- Is the exponent value outside the representable range for this width
(decimal128.cc line 188)? -/
def exp_out_of_range (cfg : pcfg) (src : List Char) : Bool :=
  atoi_at src (mant_end src + 1) < -(cfg.maxexp - 1) ∨
  atoi_at src (mant_end src + 1) > cfg.maxexp

/-- The buffer patched for the BID library (decimal128.cc lines 196-214):
the consumed prefix with the configured decimal mark replaced by a dot and
the configured exponent character replaced by E, capped at the 49
characters that fit the 50-byte buffer. -/
def patch_buffer (cfg : pcfg) (src : List Char) (s : Nat) : List Char :=
  (src.take (min s 49)).map fun c =>
    if c = cfg.decimal_dot then '.'
    else if c = cfg.exponent_char then 'E'
    else c

/-- OBJECT_PARSER_BODY(decimal128) (decimal128.cc lines 111-221), shared
textually by the three widths through the pcfg parameters.  precedence is
p.precedence; src is the NUL-terminated source text of length p.length. -/
def decimal_parse (cfg : pcfg) (src : List Char) (precedence : Int) : presult :=
  if (charAt src 0 = '+' ∨ charAt src 0 = '-') ∧ precedence < 0 then .SKIP
  else if mant_end src = sign_len src ∧ ¬ is_special src (mant_end src) then
    .SKIP
  else if mantissa_count src ≥ cfg.maxdigits then
    .WARN (sign_len src + cfg.maxdigits)
  else if has_marker cfg src then
    if exp_digits_end src = exp_scan_start src then
      .ERROR (exp_scan_start src)
    else if exp_out_of_range cfg src then
      .WARN (exp_digits_end src)
    else
      .OK (exp_digits_end src) (patch_buffer cfg src (exp_digits_end src))
  else
    .OK (mant_end src) (patch_buffer cfg src (mant_end src))

/- ======================================================================== -/
/- Display formatting: decimal_format (decimal128.cc lines 238-461)         -/
/- ======================================================================== -/

/-- settings::display: the four display modes.  The source compares the
mode with >= SCI and == NORMAL / FIX / ENG, so only this order matters. -/
inductive dmode where
  | NORMAL
  | FIX
  | SCI
  | ENG
  deriving DecidableEq, Repr

/-- Numeric rank of a display mode, for the mode >= SCI comparison. -/
def dmode.rank : dmode → Nat
  | .NORMAL => 0
  | .FIX => 1
  | .SCI => 2
  | .ENG => 3

/-- The settings read at the top of decimal_format, after the editing flag
has been resolved (editing selects NORMAL / BID128_MAXDIGITS): display
mode, displayed digits, the non-scientific threshold, show_decimal, and
the decimal / exponent characters. -/
structure dcfg where
  mode : dmode
  digits : Int
  max_nonsci : Int
  showdec : Bool
  decimal : Char
  expchar : Char

/-- The text bid128_to_string hands to decimal_format: either a special
value with no E (an infinity or NaN), or a signed integral mantissa and a
base-10 exponent, standing for the string sign-mantissa-E-exponent.  The
BID library always emits a leading + or - on finite values. -/
inductive bid_text where
  | special (text : List Char)
  | finite (negative : Bool) (mant : List Char) (bidexp : Int)
  deriving DecidableEq, Repr

/-- The trailing-zero strip loop, structurally recursive on fuel (the
mantissa length bounds the number of characters the loop can drop). -/
def strip_zeros_fuel : Nat → List Char → List Char
  | 0, ds => ds
  | n + 1, ds =>
    if ds.length > 1 ∧ ds.getLast? = some '0' then strip_zeros_fuel n ds.dropLast
    else ds

/-- The trailing-zero strip of the mantissa (decimal128.cc lines 304-310):
drop trailing 0 characters while more than one mantissa character remains
(last > copy + 2, with the sign occupying copy[0]). -/
def strip_zeros (ds : List Char) : List Char :=
  strip_zeros_fuel ds.length ds

/-- The carry propagation of the rounding loop (decimal128.cc lines
398-409), right to left with early stop: each character at least as large
as the character 0 is incremented, wrapping above 9 and carrying on;
smaller characters (the decimal mark, a sign) are skipped with the carry
kept.  Returns the updated characters and whether a carry ran off the
left end (rounding still true when the loop stops). -/
def carry_digits : List Char → List Char × Bool
  | [] => ([], true)
  | c :: rest =>
    match carry_digits rest with
    | (rest', true) =>
      if '0' ≤ c then
        let c' := Char.ofNat (c.toNat + 1)
        if '9' < c' then (Char.ofNat (c'.toNat - 10) :: rest', true)
        else (c' :: rest', false)
      else (c :: rest', true)
    | (rest', false) => (c :: rest', false)

/-- The rounding loop applied to the whole output buffer: the loop
condition --rptr > buf never lets the carry reach buf[0] (the sign of a
negative number, or the first character of a positive one), so the head is
left untouched and a carry arriving there reports overflow.  An empty
buffer leaves rounding true, as the C loop body never runs. -/
def round_buffer : List Char → List Char × Bool
  | [] => ([], true)
  | b :: rest =>
    let r := carry_digits rest
    (b :: r.1, r.2)

/-- The significant-digit copy loop (decimal128.cc lines 382-393): emit
digits while any remain and decimals > 0, decrementing decpos, inserting
the decimal mark when decpos reaches 0 and more digits follow (or showdec
is set), and decrementing decimals after the mark (or always, when
counting all significant digits in NORMAL or ENG mode).  Returns the
emitted characters, the unconsumed digits, and the final decpos and
decimals. -/
def copy_digits (countAll showdec : Bool) (dec : Char) :
    List Char → Int → Int → List Char × List Char × Int × Int
  | [], decpos, decimals => ([], [], decpos, decimals)
  | d :: rest, decpos, decimals =>
    if 0 < decimals then
      let decpos' := decpos - 1
      let sep : List Char := if decpos' = 0 ∧ (rest ≠ [] ∨ showdec) then [dec]
        else []
      let decimals' := if decpos' < 0 ∨ countAll then decimals - 1 else decimals
      let res := copy_digits countAll showdec dec rest decpos' decimals'
      (d :: (sep ++ res.1), res.2.1, res.2.2.1, res.2.2.2)
    else ([], d :: rest, decpos, decimals)

/-- The trailing-zero loop (decimal128.cc lines 439-446): n zeroes, with
the decimal mark emitted when decpos crosses 0. -/
def trailing_zeros (dec : Char) : Nat → Int → List Char
  | 0, _ => []
  | n + 1, decpos =>
    '0' :: ((if decpos - 1 = 0 then [dec] else []) ++
      trailing_zeros dec n (decpos - 1))

/-- The rounding trigger (decimal128.cc line 396): a digit remains beyond
the displayed window and it is 5 or greater. -/
def next_digit_rounds : List Char → Bool
  | [] => false
  | r :: _ => '5' ≤ r

/-- One pass of the do-while body of decimal_format: either a finished
text, or the overflow restart (decimal128.cc lines 414-422), which
rebuilds the input as sign, the single digit 1, and realexp + 1. -/
inductive once_result where
  | done (text : List Char)
  | restart (negative : Bool) (newexp : Int)
  deriving DecidableEq, Repr

/-- The switch-to-scientific decision (decimal128.cc lines 329-343):
always in SCI and ENG modes; in NORMAL and FIX mode, for negative real
exponents when leading zeros plus digits would overrun min(digits,
max_nonsci), for nonnegative ones at or beyond max_nonsci.  mexps is the
mantissa-digit exponent after the trailing-zero strip. -/
def has_exp_decision (cfg : dcfg) (realexp mexps : Int) : Bool :=
  if cfg.mode.rank ≥ 2 then true
  else if realexp < 0 then mexps - realexp - 1 ≥ min cfg.digits cfg.max_nonsci
  else realexp ≥ cfg.max_nonsci

/-- The engineering-mode exponent offset (decimal128.cc line 374), with
the C truncated % on negative values. -/
def eng_offset (engmode : Bool) (realexp : Int) : Int :=
  if engmode then
    (if realexp ≥ 0 then realexp.tmod 3 else (realexp - 2).tmod 3 + 2)
  else 0

/-- The sign-plus-leading-zeroes prefix of the output buffer: the kept
minus sign, and for sub-unity values not in scientific form the 0, the
decimal mark, and the fractional leading zeroes
(decimal128.cc lines 350-367). -/
def lead_chars (negative subunity : Bool) (dec : Char) (leadZeros : Nat) :
    List Char :=
  (if negative then ['-'] else []) ++
  (if subunity then '0' :: dec :: List.replicate leadZeros '0' else [])

/-- The end of the loop body: restart with the incremented real exponent
when the rounding carry overflowed (decimal128.cc lines 414-422),
otherwise the finished text. -/
def finish_or_restart (negative : Bool) (realexp : Int) (overflow : Bool)
    (text : List Char) : once_result :=
  if overflow then .restart negative (realexp + 1) else .done text

/-- The body of decimal_format's do-while loop (decimal128.cc lines
266-458) for a finite value, one iteration. -/
def decimal_format_once (cfg : dcfg) (negative : Bool) (mant : List Char)
    (bidexp : Int) : once_result :=
  let realexp : Int := bidexp + ((mant.length : Int) - 1)
  let mant' := strip_zeros mant
  let hasexp := has_exp_decision cfg realexp ((mant'.length : Int) - 1)
  let decpos0 : Int := if ¬ hasexp ∧ 0 ≤ realexp then realexp + 1 else 1
  let subunity : Bool := ¬ hasexp ∧ realexp < 0
  let leadZeros : Nat := (-(realexp + 1)).toNat
  let decpos1 : Int := if subunity then decpos0 - 1 else decpos0
  let decimals1 : Int := if subunity then cfg.digits - leadZeros
    else cfg.digits
  let engmode : Bool := cfg.mode = .ENG
  let offset : Int := eng_offset engmode realexp
  let dispexp := realexp - offset
  let decimals2 := if engmode then decimals1 + 1 else decimals1
  let sigmode : Bool := cfg.mode = .NORMAL
  let copied := copy_digits (sigmode || engmode) cfg.showdec cfg.decimal
    mant' (decpos1 + offset) decimals2
  let decpos3 := copied.2.2.1
  let pre : List Char := lead_chars negative subunity cfg.decimal leadZeros ++
    copied.1
  let rounded := if next_digit_rounds copied.2.1 then round_buffer pre
    else (pre, false)
  let decimals4 : Int :=
    if sigmode then (if decpos3 > 0 then decpos3 else 0)
    else if cfg.mode = .FIX ∧ decpos3 > 0 then cfg.digits + decpos3
    else copied.2.2.2
  let trail := trailing_zeros cfg.decimal decimals4.toNat decpos3
  let suffix : List Char :=
    if hasexp then cfg.expchar :: (toString dispexp).data else []
  finish_or_restart negative realexp rounded.2 (rounded.1 ++ trail ++ suffix)

/-- The special-value path (decimal128.cc lines 270-281): +inf and -inf
(case-insensitive) become the infinity sign, anything else is returned
unchanged. -/
def special_text (t : List Char) : List Char :=
  if charAt t 0 = '+' ∧ (charAt t 1).toLower = 'i' ∧
      (charAt t 2).toLower = 'n' ∧ (charAt t 3).toLower = 'f' then ['∞']
  else if charAt t 0 = '-' ∧ (charAt t 1).toLower = 'i' ∧
      (charAt t 2).toLower = 'n' ∧ (charAt t 3).toLower = 'f' then ['-', '∞']
  else t

/-- The do-while loop of decimal_format, fueled: each restart re-enters
the body with the mantissa 1 and the incremented exponent.  none means the
fuel ran out before an iteration finished. -/
def decimal_format_loop (cfg : dcfg) :
    Nat → Bool → List Char → Int → Option (List Char)
  | 0, _, _, _ => none
  | fuel + 1, negative, mant, bidexp =>
    match decimal_format_once cfg negative mant bidexp with
    | .done t => some t
    | .restart neg e => decimal_format_loop cfg fuel neg ['1'] e

/-- decimal_format (decimal128.cc lines 238-461): the special path returns
directly; the finite path runs the do-while body, with fuel 2 because the
restart can fire at most once (proved below). -/
def decimal_format (cfg : dcfg) : bid_text → Option (List Char)
  | .special t => some (special_text t)
  | .finite neg mant e => decimal_format_loop cfg 2 neg mant e

/- ======================================================================== -/
/- Pixel coordinate conversion: PlotParameters::pixel_adjust                -/
/- (graphics.cc lines 245-316)                                              -/
/- ======================================================================== -/

/-- The objects pixel_adjust dispatches on: the numeric kinds (integer,
bignum, fraction and decimal ids, all sharing one branch and modelled with
an exact rational value), the based kinds read through value of coord, and
everything else (the default branch, a type error yielding 0). -/
inductive gobj where
  | numeric (v : ℚ)
  | based (v : Int)
  | nonNumeric
  deriving DecidableEq, Repr

/-- Subtraction on GC pointers to algebraics: a null operand yields a null
result (the smart-pointer arithmetic wrappers return null rather than
dereferencing). -/
def alg_sub : Option ℚ → Option ℚ → Option ℚ
  | some a, some b => some (a - b)
  | _, _ => none

/-- Multiplication, with the same null propagation. -/
def alg_mul : Option ℚ → Option ℚ → Option ℚ
  | some a, some b => some (a * b)
  | _, _ => none

/-- range->is_zero() guarded by the null check: false on null. -/
def alg_is_zero : Option ℚ → Bool
  | some a => a = 0
  | none => false

/-- Division, instrumented: none records that a division with divisor zero
was actually performed (both operands non-null, divisor zero); null
operands short-circuit to a null result without dividing. -/
def alg_div_checked : Option ℚ → Option ℚ → Option (Option ℚ)
  | some a, some b => if b = 0 then none else some (some (a / b))
  | some _, none => some none
  | none, _ => some none

/-- max - min, after the bogus-input guard of graphics.cc lines 278-280:
a null or zero range is replaced by 1 before any division. -/
def effective_range (mn mx : Option ℚ) : Option ℚ :=
  let range := alg_sub mx mn
  if range = none ∨ alg_is_zero range then some (1 : ℚ) else range

/-- pos->as_int32(0, false): truncation of the scaled position to a
machine integer (runtime helper outside src/; its exact clamping does not
matter to the claims, the floor stands in for it). -/
def as_int32 : Option ℚ → Int
  | some r => ⌊r⌋
  | none => 0

/-- PlotParameters::pixel_adjust (graphics.cc lines 245-316).  The outer
Option on the result records whether a division by zero occurred (none);
the C function always produces a coordinate.  A null object returns 0
before any dispatch. -/
def pixel_adjust (obj : Option gobj) (mn mx : Option ℚ) (scale : Nat)
    (isSize : Bool) : Option Int :=
  match obj with
  | none => some 0
  | some (.numeric q) =>
    let range := effective_range mn mx
    let sa : Option ℚ := some (scale : ℚ)
    let pos : Option ℚ := if isSize then some q else alg_sub (some q) mn
    match alg_div_checked pos range with
    | none => none
    | some posOverRange => some (as_int32 (alg_mul posOverRange sa))
  | some (.based v) => some v
  | some .nonNumeric => some 0

/- ======================================================================== -/
/- Theorems                                                                 -/
/- ======================================================================== -/

/-- LEB128 decoding inverts encoding. -/
theorem leb128_decode_encode (n : Nat) :
    leb128_decode (leb128_encode n) = n := by
  induction n using Nat.strong_induction_on with
  | _ n ih =>
    rw [leb128_encode]
    by_cases h : n < 128
    · simp [h, leb128_decode]
    · have hd : n / 128 < n := Nat.div_lt_self (by omega) (by omega)
      simp only [if_neg h, leb128_decode]
      rw [if_neg (by omega), ih _ hd]
      omega

/-- C10: the local-variable-name object encoding round-trips its index:
for every unsigned index n, constructing a local object with index n
(local::local writing the index with leb128) and reading it back via
local::index (the LEB128 decoder) returns exactly n. -/
theorem local_index_round_trip (n : Nat) :
    local_index (local_make n) = n := by
  simpa [local_index, local_make] using leb128_decode_encode n

/-- C3: local resolution walks the active frames innermost-first: with an
outer frame binding X, Y and an inner frame binding A, B, index 0 resolves
to A, 1 to B, 2 to X, 3 to Y, and index 4 — beyond the outermost frame —
is a detectable out-of-scope error (none), not an arbitrary value. -/
theorem resolve_local_nested {α : Type} (A B X Y : α) :
    resolve_local [[A, B], [X, Y]] 0 = some A ∧
    resolve_local [[A, B], [X, Y]] 1 = some B ∧
    resolve_local [[A, B], [X, Y]] 2 = some X ∧
    resolve_local [[A, B], [X, Y]] 3 = some Y ∧
    resolve_local [[A, B], [X, Y]] 4 = none := by
  refine ⟨rfl, rfl, ?_, ?_, ?_⟩ <;> rfl

/-- C6: explicit promotion fails, leaving the value untouched, on every
(source-kind, target-kind) pair without a widening rule; in particular a
decimal64 value is never narrowed to decimal32. -/
theorem real_promotion_no_rule (x : algval) (t : oid)
    (h : promotion_rule x.typeOf t = false) :
    real_promotion x t = none := by
  cases x <;> cases t <;>
    simp_all [promotion_rule, real_promotion, algval.typeOf]

/-- Witness for C6: promoting a decimal64 value to decimal32 is not a
defined rule and fails. -/
theorem real_promotion_no_rule_witness :
    promotion_rule (algval.typeOf (.decimal64 1)) .decimal32 = false ∧
    real_promotion (.decimal64 1) .decimal32 = none :=
  ⟨by decide, real_promotion_no_rule (.decimal64 1) .decimal32 (by decide)⟩

/-- C7: promotion is idempotent: re-promoting the result of a successful
promotion to the same kind succeeds and returns the value unchanged,
promote_to(promote_to(x, K), K) == promote_to(x, K), via the early
xt == type return. -/
theorem real_promotion_idempotent (x : algval) (t : oid) :
    (real_promotion x t).bind (fun y => real_promotion y t) =
      real_promotion x t := by
  cases x <;> cases t <;> simp [real_promotion, algval.typeOf]

/-- C2: the preference-driven automatic promotion picks the target width
from the configured precision alone — decimal128 above the 64-bit digit
capacity, decimal64 above the 32-bit digit capacity, decimal32 otherwise —
and on success reports exactly that width (ID_object only on failure);
integers always succeed, at the precision-selected width. -/
theorem real_promotion_auto_width (precision : Nat) (x : algval) :
    ((real_promotion_auto precision x).2 = .object ∨
      (real_promotion_auto precision x).2 = spec_auto_width precision) ∧
    (∀ v : Nat, (real_promotion_auto precision (.integer v)).2 =
      spec_auto_width precision) := by
  have htype : real_promotion_auto_type precision = spec_auto_width precision :=
    rfl
  constructor
  · cases hrp : real_promotion x (spec_auto_width precision) <;>
      simp [real_promotion_auto, htype, hrp]
  · intro v
    rw [← htype]
    unfold real_promotion_auto real_promotion_auto_type
    split_ifs <;> simp [real_promotion, algval.typeOf]

/-- C9: converting an object to a pixel coordinate never divides by zero —
a null or zero plot range is replaced by 1 before the position is divided —
and a null input object yields coordinate 0 without being dereferenced. -/
theorem pixel_adjust_safe (obj : Option gobj) (mn mx : Option ℚ)
    (scale : Nat) (isSize : Bool) :
    (pixel_adjust obj mn mx scale isSize).isSome ∧
    pixel_adjust none mn mx scale isSize = some 0 ∧
    (∀ mn' mx', alg_sub mx' mn' = none ∨ alg_is_zero (alg_sub mx' mn') →
      effective_range mn' mx' = some 1) := by
  refine ⟨?_, rfl, ?_⟩
  · match obj with
    | none => simp [pixel_adjust]
    | some (.based v) => simp [pixel_adjust]
    | some .nonNumeric => simp [pixel_adjust]
    | some (.numeric q) =>
      simp only [pixel_adjust]
      have hr : ∃ r : ℚ, effective_range mn mx = some r ∧ r ≠ 0 := by
        simp only [effective_range]
        split_ifs with h
        · exact ⟨1, rfl, one_ne_zero⟩
        · push_neg at h
          obtain ⟨h1, h2⟩ := h
          match hs : alg_sub mx mn with
          | none => exact absurd hs h1
          | some r =>
            refine ⟨r, rfl, ?_⟩
            intro h0
            rw [hs] at h2
            simp [alg_is_zero, h0] at h2
      obtain ⟨r, hr, hr0⟩ := hr
      rw [hr]
      match hp : (if isSize then some q else alg_sub (some q) mn) with
      | none => simp [alg_div_checked]
      | some a => simp [alg_div_checked, hr0]
  · intro mn' mx' h
    simp only [effective_range]
    rw [if_pos h]

/-- Witness for C9: a degenerate range with min = max has its divisor
replaced by 1 and the conversion still produces a coordinate. -/
theorem pixel_adjust_safe_witness :
    (pixel_adjust (some (.numeric 2)) (some 3) (some 3) 4 false).isSome ∧
    effective_range (some 3) (some 3) = some 1 := by
  obtain ⟨h1, -, h3⟩ := pixel_adjust_safe (some (.numeric 2)) (some 3) (some 3)
    4 false
  refine ⟨h1, h3 (some 3) (some 3) (Or.inr ?_)⟩
  simp [alg_sub, alg_is_zero]

/-- C4: once the parser is actually parsing a number (not skipping), it
returns WARN in exactly two situations: the mantissa digit count meets or
exceeds the width's maximum representable digits, or a well-formed
exponent's value falls outside the width's representable range. -/
theorem decimal_parse_warn_iff (cfg : pcfg) (src : List Char) (prec : Int)
    (h : decimal_parse cfg src prec ≠ .SKIP) :
    (∃ p, decimal_parse cfg src prec = .WARN p) ↔
      (cfg.maxdigits ≤ mantissa_count src ∨
        (has_marker cfg src ∧ exp_digits_end src ≠ exp_scan_start src ∧
          exp_out_of_range cfg src)) := by
  unfold decimal_parse at h ⊢
  split_ifs at h ⊢ <;> simp_all

/-- Witness for C4: a 40-digit literal fed to the 32-bit decimal parser is
not skipped, and the WARN characterization holds for it (its digit count
exceeds the 7 digits of the 32-bit width). -/
theorem decimal_parse_warn_iff_witness :
    decimal_parse pcfg32 (List.replicate 40 '1') 0 ≠ .SKIP ∧
    ((∃ p, decimal_parse pcfg32 (List.replicate 40 '1') 0 = .WARN p) ↔
      (pcfg32.maxdigits ≤ mantissa_count (List.replicate 40 '1') ∨
        (has_marker pcfg32 (List.replicate 40 '1') ∧
          exp_digits_end (List.replicate 40 '1') ≠
            exp_scan_start (List.replicate 40 '1') ∧
          exp_out_of_range pcfg32 (List.replicate 40 '1')))) :=
  ⟨by decide,
    decimal_parse_warn_iff pcfg32 (List.replicate 40 '1') 0 (by decide)⟩

/-- C5: an exponent marker followed by no digits (at most a sign) makes the
parser return ERROR, located at the position where the exponent digits
were expected. -/
theorem decimal_parse_exp_no_digits (cfg : pcfg) (src : List Char)
    (prec : Int)
    (h1 : ¬ ((charAt src 0 = '+' ∨ charAt src 0 = '-') ∧ prec < 0))
    (h2 : ¬ (mant_end src = sign_len src ∧ ¬ is_special src (mant_end src)))
    (h3 : mantissa_count src < cfg.maxdigits)
    (h4 : has_marker cfg src)
    (h5 : exp_digits_end src = exp_scan_start src) :
    decimal_parse cfg src prec = .ERROR (exp_scan_start src) := by
  unfold decimal_parse
  rw [if_neg h1, if_neg h2, if_neg (by omega), if_pos h4, if_pos h5]

/-- Witness for C5: parsing the text 1e yields ERROR at offset 2. -/
theorem decimal_parse_exp_no_digits_witness :
    (¬ ((charAt ['1', 'e'] 0 = '+' ∨ charAt ['1', 'e'] 0 = '-') ∧
      (0 : Int) < 0)) ∧
    (¬ (mant_end ['1', 'e'] = sign_len ['1', 'e'] ∧
      ¬ is_special ['1', 'e'] (mant_end ['1', 'e']))) ∧
    mantissa_count ['1', 'e'] < pcfg128.maxdigits ∧
    has_marker pcfg128 ['1', 'e'] ∧
    exp_digits_end ['1', 'e'] = exp_scan_start ['1', 'e'] ∧
    decimal_parse pcfg128 ['1', 'e'] 0 = .ERROR (exp_scan_start ['1', 'e']) :=
  ⟨by decide, by decide, by decide, by decide, by decide,
    decimal_parse_exp_no_digits pcfg128 ['1', 'e'] 0 (by decide) (by decide)
      (by decide) (by decide) (by decide)⟩

/-- Every restart the loop body emits carries the original sign and the
incremented real exponent. -/
theorem finish_or_restart_restart (neg : Bool) (re : Int) (ov : Bool)
    (t : List Char) (n : Bool) (e' : Int)
    (h : finish_or_restart neg re ov t = .restart n e') :
    neg = n ∧ re + 1 = e' := by
  unfold finish_or_restart at h
  split at h
  · rw [once_result.restart.injEq] at h
    exact h
  · exact absurd h (by simp)

/-- After the restart, the copy loop on the single mantissa digit 1 leaves
no remaining digit that could trigger rounding: either the 1 was consumed,
or the next digit is the 1 itself, below 5. -/
theorem next_digit_rounds_one (countAll showdec : Bool) (dec : Char)
    (dp dc : Int) :
    next_digit_rounds
      ((copy_digits countAll showdec dec ['1'] dp dc).2.1) = false := by
  by_cases h : 0 < dc <;> simp [copy_digits, h, next_digit_rounds]

/-- An iteration on the restart input — the single mantissa digit 1 — never
restarts again: the do-while body finishes. -/
theorem decimal_format_once_one (cfg : dcfg) (neg : Bool) (e : Int) :
    ∃ t, decimal_format_once cfg neg ['1'] e = .done t := by
  have hs : strip_zeros ['1'] = ['1'] := rfl
  simp only [decimal_format_once, hs, next_digit_rounds_one]
  exact ⟨_, rfl⟩

/-- C1: when rounding carries past the first displayed digit, formatting
restarts with the real exponent incremented by 1 and the single leading
coefficient digit 1 (every restart produced by the loop body has exactly
that shape), and for every decimal128 input the restart fires at most
once, so the fuel-2 loop — hence decimal_format — always returns a text. -/
theorem decimal_format_total (cfg : dcfg) (b : bid_text) :
    (decimal_format cfg b).isSome ∧
    (∀ neg mant e n e', b = .finite neg mant e →
      decimal_format_once cfg neg mant e = .restart n e' →
      n = neg ∧ e' = e + mant.length) := by
  constructor
  · match b with
    | .special t => simp [decimal_format]
    | .finite neg mant e =>
      simp only [decimal_format, decimal_format_loop]
      match h : decimal_format_once cfg neg mant e with
      | .done t => simp
      | .restart n' e' =>
        obtain ⟨t, ht⟩ := decimal_format_once_one cfg n' e'
        simp [decimal_format_loop, ht]
  · rintro neg mant e n e' rfl h
    simp only [decimal_format_once] at h
    obtain ⟨h1, h2⟩ := finish_or_restart_restart _ _ _ _ _ _ h
    refine ⟨h1.symm, ?_⟩
    omega

/-- Witness for C1: formatting 9.9999 (the BID text +99999E-4) to 4
significant digits overflows during rounding; the body restarts with the
mantissa 1 and exponent 0 + 1 = 1, and the whole format still returns. -/
theorem decimal_format_total_witness :
    (decimal_format ⟨.NORMAL, 4, 9, false, '.', 'E'⟩
      (.finite false ['9', '9', '9', '9', '9'] (-4))).isSome ∧
    (false = false ∧ (1 : Int) = -4 + (5 : Int)) := by
  have h := decimal_format_total ⟨.NORMAL, 4, 9, false, '.', 'E'⟩
    (.finite false ['9', '9', '9', '9', '9'] (-4))
  exact ⟨h.1, h.2 false ['9', '9', '9', '9', '9'] (-4) false 1 rfl (by decide)⟩

/-- The copy loop on the mantissa 123 with decpos 3 in a counting-all mode:
all three digits are emitted, no separator (the window closes exactly at
the end and showdec is off). -/
theorem copy_digits_123 (d : Int) (hd : 3 ≤ d) :
    copy_digits true false '.' ['1', '2', '3'] 3 d =
      (['1', '2', '3'], [], 0, d - 3) := by
  simp only [copy_digits]
  norm_num
  split_ifs <;> simp_all <;> omega

/-- One loop iteration on the BID text +1230E-1 (the value 123, with the
library's spurious trailing zero) in standard mode finishes with 123. -/
theorem once_123 (d mn : Int) (ech : Char) (hd : 3 ≤ d) (hn : 3 ≤ mn) :
    decimal_format_once ⟨.NORMAL, d, mn, false, '.', ech⟩ false
      ['1', '2', '3', '0'] (-1) = .done ['1', '2', '3'] := by
  have hstrip : strip_zeros ['1', '2', '3', '0'] = ['1', '2', '3'] := rfl
  have hhe : has_exp_decision ⟨.NORMAL, d, mn, false, '.', ech⟩ 2 2 = false := by
    simp only [has_exp_decision, dmode.rank]
    norm_num
    omega
  simp only [decimal_format_once, hstrip]
  norm_num [hhe, eng_offset, copy_digits_123 d hd]
  simp [copy_digits_123 d hd, next_digit_rounds, lead_chars, trailing_zeros,
    finish_or_restart]

/-- The copy loop on the single mantissa digit 5 with decpos already 0
(after the leading zero was emitted): the digit is emitted, no separator. -/
theorem copy_digits_5 (d : Int) (hd : 0 < d) :
    copy_digits true false '.' ['5'] 0 d = (['5'], [], -1, d - 1) := by
  simp only [copy_digits]
  norm_num
  omega

/-- One loop iteration on the BID text +5E-1 (the value 0.5) in standard
mode finishes with 0.5, keeping the leading zero. -/
theorem once_05 (d mn : Int) (ech : Char) (hd : 3 ≤ d) (hn : 3 ≤ mn) :
    decimal_format_once ⟨.NORMAL, d, mn, false, '.', ech⟩ false
      ['5'] (-1) = .done ['0', '.', '5'] := by
  have hstrip : strip_zeros ['5'] = ['5'] := rfl
  have hhe : has_exp_decision ⟨.NORMAL, d, mn, false, '.', ech⟩ (-1) 0 =
      false := by
    simp only [has_exp_decision, dmode.rank]
    norm_num
    constructor <;> omega
  simp only [decimal_format_once, hstrip]
  norm_num [hhe, eng_offset]
  simp [copy_digits_5 d (by omega), next_digit_rounds, lead_chars,
    trailing_zeros, finish_or_restart]

/-- C8: in standard (significant-digits) mode — with at least 3 displayed
digits, a non-scientific threshold of at least 3, show_decimal off and a
dot separator — the value 123 (BID text +1230E-1) formats as 123 with no
trailing separator or zeroes, and 0.5 (BID text +5E-1) formats as 0.5
with the leading zero kept. -/
theorem decimal_format_standard_edge (cfg : dcfg) (hm : cfg.mode = .NORMAL)
    (hd : 3 ≤ cfg.digits) (hn : 3 ≤ cfg.max_nonsci) (hs : cfg.showdec = false)
    (hc : cfg.decimal = '.') :
    decimal_format cfg (.finite false ['1', '2', '3', '0'] (-1)) =
      some ['1', '2', '3'] ∧
    decimal_format cfg (.finite false ['5'] (-1)) = some ['0', '.', '5'] := by
  obtain ⟨mode, d, mn, sd, dec, ech⟩ := cfg
  simp only at hm hd hn hs hc
  subst hm hs hc
  constructor
  · simp [decimal_format, decimal_format_loop, once_123 d mn ech hd hn]
  · simp [decimal_format, decimal_format_loop, once_05 d mn ech hd hn]

/-- Witness for C8: with 12 displayed digits and threshold 9, 123 formats
as 123 and 0.5 as 0.5. -/
theorem decimal_format_standard_edge_witness :
    decimal_format ⟨.NORMAL, 12, 9, false, '.', 'E'⟩
        (.finite false ['1', '2', '3', '0'] (-1)) = some ['1', '2', '3'] ∧
    decimal_format ⟨.NORMAL, 12, 9, false, '.', 'E'⟩
        (.finite false ['5'] (-1)) = some ['0', '.', '5'] :=
  decimal_format_standard_edge ⟨.NORMAL, 12, 9, false, '.', 'E'⟩ rfl
    (by norm_num) (by norm_num) rfl rfl

end DB48X
